import Mathlib

/-!
Shallow embedding of the Dueli live-challenge runtime
(controllers/challenge.controller.js, controllers/rating.controller.js,
config/socket.js, models schemas).

Monetary amounts and rating scores are JavaScript numbers in the source;
they are modelled as exact rationals.  Asynchronous Mongo lookups and the
YouTube broadcast provider are modelled as explicit inputs
(the advertisement document attached to a binding, the populated user
documents, the optional broadcast results).
-/

namespace Dueli

/-- Challenge lifecycle status (challengeSchema.status enum). -/
inductive ChallengeStatus
  | pending
  | scheduled
  | live
  | completed
  | cancelled
deriving DecidableEq, Repr

/-- Advertisement/binding status (advertisementSchema.status enum; the
per-challenge binding enum is the subset pending/displayed/rejected). -/
inductive AdStatus
  | pending
  | assigned
  | displayed
  | rejected
  | expired
  | cancelled
deriving DecidableEq, Repr

/-- The advertisement document fields consumed by revenue computation. -/
structure Ad where
  paidAmount : ℚ
deriving DecidableEq, Repr

/-- One entry of challenge.advertisements.  `adDoc` is the result of the
`Advertisement.findById(ad.adId)` lookup made by endChallenge (none models a
missing advertisement document, which contributes 0). -/
structure AdBinding where
  adId : Nat
  status : AdStatus
  adDoc : Option Ad
  rejectedBy : Option Nat
  rejectionReason : Option String
deriving DecidableEq, Repr

/-- challenge.revenueDistribution subdocument. -/
structure RevenueDistribution where
  platform : ℚ
  creator : ℚ
  opponent : ℚ
deriving DecidableEq, Repr

/-- The Challenge document fields used by the live-session runtime.
User references are modelled as natural-number ids. -/
structure Challenge where
  id : Nat
  creator : Nat
  opponent : Option Nat
  status : ChallengeStatus
  startedAt : Option Nat
  endedAt : Option Nat
  creatorYoutubeUrl : Option String
  opponentYoutubeUrl : Option String
  creatorStreamKey : Option String
  opponentStreamKey : Option String
  creatorBroadcastId : Option String
  opponentBroadcastId : Option String
  advertisements : List AdBinding
  totalRevenue : ℚ
  revenueDistribution : Option RevenueDistribution
  creatorRatingSum : ℚ
  creatorRatingCount : Nat
  opponentRatingSum : ℚ
  opponentRatingCount : Nat
  totalRatings : Nat
deriving DecidableEq, Repr

/-- Rating document (ratingSchema). -/
structure Rating where
  challenge : Nat
  rater : Nat
  competitorRated : Nat
  score : ℚ
  timestamp : Nat
deriving DecidableEq, Repr

/-- Error codes returned by the controllers. -/
inductive ApiError
  | challengeNotFound
  | notParticipant
  | noOpponent
  | alreadyLive
  | alreadyCompleted
  | youtubeNotLinked
  | youtubeApiError
  | notLive
  | cannotCancel
  | forbidden
  | adNotFound
  | invalidCompetitor
  | selfRating
  | participantMissing
deriving DecidableEq, Repr

/-- The populated user-document fields consulted by startChallenge. -/
structure UserDoc where
  youtubeLinked : Bool
deriving DecidableEq, Repr

/-- Result of a successful createLiveBroadcast call (config/youtube.js). -/
structure Broadcast where
  broadcastId : String
  streamKey : String
  embedUrl : String
deriving DecidableEq, Repr

/-- Competitor role tag stored in a transaction's metadata. -/
inductive CompetitorRole
  | creator
  | opponent
deriving DecidableEq, Repr

/-- Transaction record created by endChallenge. -/
structure Transaction where
  user : Option Nat
  challenge : Nat
  amount : ℚ
  ratingPercentage : ℚ
  totalChallengeRevenue : ℚ
  role : CompetitorRole
deriving DecidableEq, Repr

/-- `challenge.creator._id === userId || (challenge.opponent && ...)`. -/
def isParticipant (ch : Challenge) (userId : Nat) : Bool :=
  ch.creator == userId || ch.opponent == some userId

/-- Contribution of one binding: `adDoc ? adDoc.paidAmount : 0`. -/
def bindingAmount (b : AdBinding) : ℚ :=
  match b.adDoc with
  | some ad => ad.paidAmount
  | none => 0

/-- `challenge.advertisements.filter(ad => ad.status === 'displayed')`
followed by `reduce((sum, ad) => sum + paidAmount, 0)`. -/
def challengeTotalRevenue (ads : List AdBinding) : ℚ :=
  (ads.filter fun ad => ad.status == AdStatus.displayed).foldl
    (fun sum ad => sum + bindingAmount ad) 0

/-- `ratings.reduce((sum, r) => sum + r.score, 0)`. -/
def scoreSum (rs : List Rating) : ℚ :=
  rs.foldl (fun sum r => sum + r.score) 0

/-- `Rating.find({challenge: challenge._id, competitorRated: challenge.creator})`. -/
def creatorRatingsOf (ch : Challenge) (db : List Rating) : List Rating :=
  db.filter fun r => r.challenge == ch.id && r.competitorRated == ch.creator

/-- `Rating.find({challenge: challenge._id, competitorRated: challenge.opponent})`.
When the opponent reference is null no rating document matches it. -/
def opponentRatingsOf (ch : Challenge) (db : List Rating) : List Rating :=
  db.filter fun r => r.challenge == ch.id && ch.opponent == some r.competitorRated

/-- The split computed by endChallenge (lines: platformShare = totalRevenue *
0.20, competitorsShare = totalRevenue * 0.80, creatorRevenue =
competitorsShare * (creatorPercentage / 100) with creatorPercentage =
(creatorTotalScore / totalScore) * 100 when totalScore > 0, else the equal
split competitorsShare / 2). -/
def revenueSplit (totalRevenue creatorTotalScore opponentTotalScore : ℚ) :
    RevenueDistribution :=
  let platformShare := totalRevenue * (20 / 100)
  let competitorsShare := totalRevenue * (80 / 100)
  let totalScore := creatorTotalScore + opponentTotalScore
  if 0 < totalScore then
    ⟨platformShare,
     competitorsShare * ((creatorTotalScore / totalScore * 100) / 100),
     competitorsShare * ((opponentTotalScore / totalScore * 100) / 100)⟩
  else
    ⟨platformShare, competitorsShare / 2, competitorsShare / 2⟩

/-- The challenge document written by endChallenge's success path: completed
status, endedAt, totalRevenue and the revenue distribution. -/
def endChallengeUpdate (ch : Challenge) (db : List Rating) (now : Nat) : Challenge :=
  { ch with
    status := ChallengeStatus.completed
    endedAt := some now
    totalRevenue := challengeTotalRevenue ch.advertisements
    revenueDistribution := some (revenueSplit (challengeTotalRevenue ch.advertisements)
      (scoreSum (creatorRatingsOf ch db)) (scoreSum (opponentRatingsOf ch db))) }

/-- The transaction records created by endChallenge (one per participant whose
revenue is positive, tagged with the rating percentage used). -/
def endChallengeTxns (ch : Challenge) (db : List Rating) : List Transaction :=
  let totalRevenue := challengeTotalRevenue ch.advertisements
  let creatorTotalScore := scoreSum (creatorRatingsOf ch db)
  let opponentTotalScore := scoreSum (opponentRatingsOf ch db)
  let totalScore := creatorTotalScore + opponentTotalScore
  let d := revenueSplit totalRevenue creatorTotalScore opponentTotalScore
  (if 0 < d.creator then
    [⟨some ch.creator, ch.id, d.creator,
      if 0 < totalScore then creatorTotalScore / totalScore * 100 else 50,
      totalRevenue, .creator⟩]
  else []) ++
  (if 0 < d.opponent then
    [⟨ch.opponent, ch.id, d.opponent,
      if 0 < totalScore then opponentTotalScore / totalScore * 100 else 50,
      totalRevenue, .opponent⟩]
  else [])

/-- endChallenge (challenge.controller.js): participant and live guards, then
the one-time revenue computation, status commit and transaction creation.
`db` is the Rating collection; `now` the wall clock read for endedAt. -/
def endChallenge (ch : Challenge) (db : List Rating) (userId : Nat) (now : Nat) :
    Except ApiError (Challenge × List Transaction) :=
  if ¬ isParticipant ch userId then .error .notParticipant
  else if ch.status ≠ ChallengeStatus.live then .error .notLive
  else .ok (endChallengeUpdate ch db now, endChallengeTxns ch db)

/-- The challenge fields assigned and saved by startChallenge after both
broadcasts are created: live status, startedAt, and the stream urls, keys and
broadcast ids for both participants. -/
def startChallengeUpdate (ch : Challenge) (now : Nat) (cb ob : Broadcast) : Challenge :=
  { ch with
    status := ChallengeStatus.live
    startedAt := some now
    creatorYoutubeUrl := some cb.embedUrl
    opponentYoutubeUrl := some ob.embedUrl
    creatorStreamKey := some cb.streamKey
    opponentStreamKey := some ob.streamKey
    creatorBroadcastId := some cb.broadcastId
    opponentBroadcastId := some ob.broadcastId }

/-- startChallenge (challenge.controller.js).  `populate` supplies the
populated user documents; `creatorBroadcast`/`opponentBroadcast` are the
results of the two createLiveBroadcast calls issued inside the try block
(none models a rejected promise, which lands in the catch handler before any
challenge field is assigned or saved). -/
def startChallenge (ch : Challenge) (populate : Nat → UserDoc) (userId : Nat)
    (now : Nat) (creatorBroadcast opponentBroadcast : Option Broadcast) :
    Except ApiError Challenge :=
  if ¬ isParticipant ch userId then .error .notParticipant
  else
    match ch.opponent with
    | none => .error .noOpponent
    | some oppId =>
      if ch.status = ChallengeStatus.live then .error .alreadyLive
      else if ch.status = ChallengeStatus.completed then .error .alreadyCompleted
      else if ¬ ((populate ch.creator).youtubeLinked && (populate oppId).youtubeLinked) then
        .error .youtubeNotLinked
      else
        match creatorBroadcast, opponentBroadcast with
        | some cb, some ob => .ok (startChallengeUpdate ch now cb ob)
        | _, _ => .error .youtubeApiError

/-- The stored challenge record after a startChallenge request: the document
is saved only on the success path, otherwise the prior record stands. -/
def startChallengeState (ch : Challenge) (populate : Nat → UserDoc) (userId : Nat)
    (now : Nat) (creatorBroadcast opponentBroadcast : Option Broadcast) : Challenge :=
  match startChallenge ch populate userId now creatorBroadcast opponentBroadcast with
  | .ok ch' => ch'
  | .error _ => ch

/-- cancelChallenge (challenge.controller.js): creator or admin may cancel;
only a completed challenge is refused. -/
def cancelChallenge (ch : Challenge) (userId : Nat) (isAdmin : Bool) :
    Except ApiError Challenge :=
  if ¬ ((ch.creator == userId) || isAdmin) then .error .forbidden
  else if ch.status = ChallengeStatus.completed then .error .cannotCancel
  else .ok { ch with status := ChallengeStatus.cancelled }

/-- `findIndex(ad => ad.adId === adId)` followed by the in-place status
update of that binding (first occurrence); none when the index is -1. -/
def rejectBinding (userId adId : Nat) (reason : Option String) :
    List AdBinding → Option (List AdBinding)
  | [] => none
  | b :: bs =>
    if b.adId == adId then
      some ({ b with
        status := AdStatus.rejected
        rejectedBy := some userId
        rejectionReason := some (reason.getD "Conflicts with principles") } :: bs)
    else
      (rejectBinding userId adId reason bs).map (b :: ·)

/-- rejectAdvertisement (challenge.controller.js): participant guard, then the
binding status flip to rejected.  (The companion Advertisement-document update
does not feed revenue computation, which reads the binding status.) -/
def rejectAdvertisement (ch : Challenge) (userId adId : Nat) (reason : Option String) :
    Except ApiError Challenge :=
  if ¬ isParticipant ch userId then .error .notParticipant
  else
    match rejectBinding userId adId reason ch.advertisements with
    | none => .error .adNotFound
    | some ads' => .ok { ch with advertisements := ads' }

/-- Update the first list element satisfying `p` (a Mongoose findOne + save
touches exactly one document, the first match). -/
def updateFirst {α : Type} (p : α → Bool) (f : α → α) : List α → List α
  | [] => []
  | a :: rest => if p a then f a :: rest else a :: updateFirst p f rest

/-- The `(challenge, rater, competitorRated)` key of the findOne query in
submitRating. -/
def ratingKeyMatch (chId raterId comp : Nat) (r : Rating) : Bool :=
  r.challenge == chId && r.rater == raterId && r.competitorRated == comp

/-- The Rating collection after submitRating's upsert: overwrite the existing
record's score and timestamp in place, otherwise create a new record. -/
def submitRatingDb (db : List Rating) (chId raterId comp : Nat) (score : ℚ)
    (now : Nat) : List Rating :=
  if (db.find? (ratingKeyMatch chId raterId comp)).isSome then
    updateFirst (ratingKeyMatch chId raterId comp)
      (fun r => { r with score := score, timestamp := now }) db
  else
    db ++ [⟨chId, raterId, comp, score, now⟩]

/-- The full-rescan block of submitRating: re-query both participants'
ratings and overwrite the denormalized challenge counters. -/
def rescanChallenge (ch : Challenge) (db : List Rating) : Challenge :=
  { ch with
    creatorRatingSum := scoreSum (creatorRatingsOf ch db)
    creatorRatingCount := (creatorRatingsOf ch db).length
    opponentRatingSum := scoreSum (opponentRatingsOf ch db)
    opponentRatingCount := (opponentRatingsOf ch db).length
    totalRatings := (creatorRatingsOf ch db).length + (opponentRatingsOf ch db).length }

/-- submitRating (rating.controller.js, full-rescan variant): live guard,
competitor-is-participant guard, upsert by (challenge, rater, competitorRated),
then the rescan of the challenge counters.  This controller performs no check
that the rater is distinct from the participants. -/
def submitRating (db : List Rating) (ch : Challenge) (raterId competitorRated : Nat)
    (score : ℚ) (now : Nat) : Except ApiError (List Rating × Challenge) :=
  if ch.status ≠ ChallengeStatus.live then .error .notLive
  else if ¬ ((competitorRated == ch.creator) || (some competitorRated == ch.opponent)) then
    .error .invalidCompetitor
  else
    let db' := submitRatingDb db ch.id raterId competitorRated score now
    .ok (db', rescanChallenge ch db')

/-- True when a submitRating call returns a success response. -/
def ratingOpSucceeds (db : List Rating) (ch : Challenge) (raterId comp : Nat)
    (score : ℚ) (now : Nat) : Bool :=
  match submitRating db ch raterId comp score now with
  | .ok _ => true
  | .error _ => false

/-- One inbound submitRating command. -/
structure RatingSubmission where
  rater : Nat
  competitorRated : Nat
  score : ℚ
  time : Nat
deriving DecidableEq, Repr

/-- Run a sequence of submitRating commands against the Rating collection and
the challenge document; a failed call leaves the store untouched. -/
def applyRatingOps (st : List Rating × Challenge) (subs : List RatingSubmission) :
    List Rating × Challenge :=
  subs.foldl (fun st sub =>
    match submitRating st.1 st.2 sub.rater sub.competitorRated sub.score sub.time with
    | .ok st' => st'
    | .error _ => st) st

/-- The accumulator a viewer reads for participant `p`. -/
def participantRatingSum (ch : Challenge) (p : Nat) : ℚ :=
  if p = ch.creator then ch.creatorRatingSum else ch.opponentRatingSum

/-- The stored rating count for participant `p`. -/
def participantRatingCount (ch : Challenge) (p : Nat) : Nat :=
  if p = ch.creator then ch.creatorRatingCount else ch.opponentRatingCount

/-- The unique-index key of ratingSchema:
`{rater: 1, challenge: 1, competitorRated: 1} (unique)`. -/
def ratingKey (r : Rating) : Nat × Nat × Nat :=
  (r.challenge, r.rater, r.competitorRated)

/-- At most one live record per (challenge, rater, competitorRated). -/
def ratingKeysNodup (db : List Rating) : Prop :=
  (db.map ratingKey).Nodup

/-- Records of participant `p` in challenge `chId`, in collection order. -/
def ratingsForP (db : List Rating) (chId p : Nat) : List Rating :=
  db.filter fun r => r.challenge == chId && r.competitorRated == p

/-- Projection of a rating record to (rater, score). -/
def pairOf (r : Rating) : Nat × ℚ :=
  (r.rater, r.score)

/-- Overwrite the first entry with key `k` in place, else append. -/
def upsertScore (k : Nat) (v : ℚ) : List (Nat × ℚ) → List (Nat × ℚ)
  | [] => [(k, v)]
  | (k', v') :: rest =>
    if k' == k then (k, v) :: rest else (k', v') :: upsertScore k v rest

/-- Modelled from the spec: for each distinct rater, that rater's latest
submitted score for participant `p` over a command sequence (the reference
value a participant's final sum is compared against). -/
def specLatestScores (p : Nat) (subs : List RatingSubmission) : List (Nat × ℚ) :=
  subs.foldl
    (fun m s => if s.competitorRated == p then upsertScore s.rater s.score m else m) []

/-- Entry of challenge.participants in the second rating controller's
challenge shape. -/
structure ParticipantEntry where
  user : Nat
  ratings : Nat
  averageRating : ℚ
deriving DecidableEq, Repr

/-- Challenge shape consumed by the second rating controller (a participants
array instead of creator/opponent fields). -/
structure ChallengeP where
  id : Nat
  status : ChallengeStatus
  participants : List ParticipantEntry
deriving DecidableEq, Repr

/-- Rating document of the second rating controller (participant field, an
optional text comment). -/
structure RatingP where
  challenge : Nat
  rater : Nat
  participant : Nat
  score : ℚ
  comment : Option String
deriving DecidableEq, Repr

/-- addRating (the second rating.controller.js): live guard, then the
self-rating rejection (a rater who is one of the participants receives a 403
before any record is touched), participant-exists guard, upsert, and the
recomputation of the participant's count and average. -/
def addRating (db : List RatingP) (ch : ChallengeP) (userId participant : Nat)
    (score : ℚ) (comment : Option String) :
    Except ApiError (List RatingP × ChallengeP) :=
  if ch.status ≠ ChallengeStatus.live then .error .notLive
  else if ch.participants.any (fun p => p.user == userId) then .error .selfRating
  else if ¬ ch.participants.any (fun p => p.user == participant) then
    .error .participantMissing
  else
    let key := fun (r : RatingP) =>
      r.challenge == ch.id && r.rater == userId && r.participant == participant
    let db' :=
      if (db.find? key).isSome then
        updateFirst key
          (fun r => { r with
            score := score
            comment := match comment with | some c => some c | none => r.comment }) db
      else
        db ++ [⟨ch.id, userId, participant, score, comment⟩]
    let ratings := db'.filter fun r => r.challenge == ch.id && r.participant == participant
    let averageScore := (ratings.foldl (fun acc r => acc + r.score) 0) / (ratings.length : ℚ)
    let ch' := { ch with
      participants := updateFirst (fun p => p.user == participant)
        (fun p => { p with ratings := ratings.length, averageRating := averageScore })
        ch.participants }
    .ok (db', ch')

/-- A value carried in a socket event payload. -/
inductive SocketValue
  | nat : Nat → SocketValue
  | str : String → SocketValue
deriving DecidableEq, Repr

/-- The setInterval period of the periodic viewer-count broadcast
(config/socket.js), in milliseconds. -/
def tickIntervalMs : Nat := 5000

/-- The object literal emitted as the viewer_count_update payload:
challengeId, viewerCount (room size) and a timestamp. -/
def viewerCountUpdatePayload (challengeId : String) (size : Nat) (now : Nat) :
    List (String × SocketValue) :=
  [("challengeId", SocketValue.str challengeId),
   ("viewerCount", SocketValue.nat size),
   ("timestamp", SocketValue.nat now)]

/-- `room.startsWith('challenge:')`, computed on the character lists. -/
def strStartsWith (s p : String) : Bool :=
  p.data.isPrefixOf s.data

/-- Split a character list at every occurrence of `c` (the character-level
behaviour of JavaScript's `split`). -/
def splitOnChar (c : Char) : List Char → List (List Char)
  | [] => [[]]
  | x :: xs =>
    let r := splitOnChar c xs
    if x == c then [] :: r
    else
      match r with
      | [] => [[x]]
      | g :: gs => (x :: g) :: gs

/-- `room.split(':')[1]`. -/
def roomChallengeId (room : String) : String :=
  String.mk (((splitOnChar ':' room.data).drop 1).headD [])

/-- One firing of the 5-second interval: every adapter room whose name starts
with "challenge:" (adapter rooms exist only while non-empty) is sent a
viewer_count_update built from its current size. -/
def periodicViewerCountTick (rooms : List (String × List Nat)) (now : Nat) :
    List (String × List (String × SocketValue)) :=
  (rooms.filter fun r => strStartsWith r.1 "challenge:").map
    fun r => (r.1, viewerCountUpdatePayload (roomChallengeId r.1) r.2.length now)

/-- A freshly created challenge record with the schema defaults for the
statistics fields, a given status and a given advertisement list. -/
def baseChallenge (id creator : Nat) (opponent : Option Nat)
    (status : ChallengeStatus) (ads : List AdBinding) : Challenge :=
  ⟨id, creator, opponent, status, none, none, none, none, none, none, none, none,
   ads, 0, none, 0, 0, 0, 0, 0⟩

/-- Worked scenario of the spec: 3 displayed ads totaling 100. -/
def c1Challenge : Challenge :=
  baseChallenge 100 1 (some 2) ChallengeStatus.live
    [⟨11, AdStatus.displayed, some ⟨40⟩, none, none⟩,
     ⟨12, AdStatus.displayed, some ⟨35⟩, none, none⟩,
     ⟨13, AdStatus.displayed, some ⟨25⟩, none, none⟩]

/-- Ratings giving the creator sum 9 and the opponent sum 3. -/
def c1Ratings : List Rating :=
  [⟨100, 10, 1, 5, 0⟩, ⟨100, 11, 1, 4, 0⟩, ⟨100, 10, 2, 3, 0⟩]

/-- The challenge document stored by the worked-scenario endChallenge call. -/
def c1After : Challenge :=
  match endChallenge c1Challenge c1Ratings 1 777 with
  | .ok (c, _) => c
  | .error _ => c1Challenge

/-- The transactions created by the worked-scenario endChallenge call. -/
def c1Txns : List Transaction :=
  match endChallenge c1Challenge c1Ratings 1 777 with
  | .ok (_, t) => t
  | .error _ => []

/-- A live challenge used for the rating-sequence scenario. -/
def c2Challenge : Challenge :=
  baseChallenge 200 1 (some 2) ChallengeStatus.live []

/-- Rater 10 rates the creator twice (4 then 2), rater 11 rates the creator
(5), rater 10 also rates the opponent (3). -/
def c2Subs : List RatingSubmission :=
  [⟨10, 1, 4, 0⟩, ⟨10, 1, 2, 1⟩, ⟨11, 1, 5, 2⟩, ⟨10, 2, 3, 3⟩]

/-- A live challenge with two displayed paid ads (40 and 10). -/
def c3Challenge : Challenge :=
  baseChallenge 300 1 (some 2) ChallengeStatus.live
    [⟨7, AdStatus.displayed, some ⟨40⟩, none, none⟩,
     ⟨8, AdStatus.displayed, some ⟨10⟩, none, none⟩]

/-- The challenge after its creator rejects the displayed ad 7. -/
def c3After : Challenge :=
  match rejectAdvertisement c3Challenge 1 7 none with
  | .ok c => c
  | .error _ => c3Challenge

/-- A pending challenge with no opponent assigned. -/
def c4NoOpponent : Challenge :=
  baseChallenge 400 1 none ChallengeStatus.pending []

/-- A challenge that is already live. -/
def c4Live : Challenge :=
  baseChallenge 401 1 (some 2) ChallengeStatus.live []

/-- A scheduled (not yet live) challenge. -/
def c4Scheduled : Challenge :=
  baseChallenge 402 1 (some 2) ChallengeStatus.scheduled []

/-- A cancelled challenge with an opponent assigned. -/
def c5Cancelled : Challenge :=
  baseChallenge 501 1 (some 2) ChallengeStatus.cancelled []

/-- A populate map in which every user has linked a YouTube account. -/
def allLinked : Nat → UserDoc := fun _ => ⟨true⟩

/-- A successful broadcast result for the creator. -/
def cBroadcast : Broadcast := ⟨"bidC", "keyC", "embedC"⟩

/-- A successful broadcast result for the opponent. -/
def oBroadcast : Broadcast := ⟨"bidO", "keyO", "embedO"⟩

/-- A live challenge with two displayed ads totaling 50 and no ratings. -/
def c7Challenge : Challenge :=
  baseChallenge 700 1 (some 2) ChallengeStatus.live
    [⟨21, AdStatus.displayed, some ⟨30⟩, none, none⟩,
     ⟨22, AdStatus.displayed, some ⟨20⟩, none, none⟩]

/-- The challenge document stored by the no-ratings endChallenge call. -/
def c7After : Challenge :=
  match endChallenge c7Challenge [] 1 888 with
  | .ok (c, _) => c
  | .error _ => c7Challenge

/-- A live challenge whose creator is user 1 and opponent user 2. -/
def c8Challenge : Challenge :=
  baseChallenge 800 1 (some 2) ChallengeStatus.live []

/-- The same challenge in the participants-array shape consumed by the second
rating controller. -/
def c8ChallengeP : ChallengeP :=
  ⟨800, ChallengeStatus.live, [⟨1, 0, 0⟩, ⟨2, 0, 0⟩]⟩

/-- The rating collection after one concrete submitRating call. -/
def c10Db : List Rating :=
  match submitRating [] c2Challenge 10 1 4 0 with
  | .ok (d, _) => d
  | .error _ => []

/-- The challenge document after one concrete submitRating call. -/
def c10Ch : Challenge :=
  match submitRating [] c2Challenge 10 1 4 0 with
  | .ok (_, c) => c
  | .error _ => c2Challenge

/-- A pending (never displayed) advertisement binding with a paid amount. -/
def c3PendingAd : AdBinding :=
  ⟨9, AdStatus.pending, some ⟨99⟩, none, none⟩

/-- The stored record after the scheduled challenge is started. -/
def c4Started : Challenge :=
  startChallengeState c4Scheduled allLinked 1 0 (some cBroadcast) (some oBroadcast)

/-- A live challenge used for the cancellation scenario. -/
def c5Live : Challenge :=
  baseChallenge 500 1 (some 2) ChallengeStatus.live []

/-- A completed challenge. -/
def c5Completed : Challenge :=
  baseChallenge 502 1 (some 2) ChallengeStatus.completed []

/-- The stored record after the cancelled challenge is started again. -/
def c5Restarted : Challenge :=
  startChallengeState c5Cancelled allLinked 1 9 (some cBroadcast) (some oBroadcast)

/-- The challenge document stored when the live challenge c4Live is ended. -/
def c5EndCh : Challenge :=
  match endChallenge c4Live [] 1 0 with
  | .ok (c, _) => c
  | .error _ => c4Live

/-- The transactions created when the live challenge c4Live is ended. -/
def c5EndTx : List Transaction :=
  match endChallenge c4Live [] 1 0 with
  | .ok (_, t) => t
  | .error _ => []

end Dueli

namespace Dueli

/-! ## Helper lemmas -/

theorem foldl_add_eq {α : Type} (f : α → ℚ) (l : List α) :
    ∀ q : ℚ, l.foldl (fun s a => s + f a) q = q + (l.map f).sum := by
  induction l with
  | nil => intro q; simp
  | cons a rest ih =>
    intro q
    simp only [List.foldl_cons, List.map_cons, List.sum_cons, ih]
    ring

theorem scoreSum_eq_sum (rs : List Rating) :
    scoreSum rs = (rs.map Rating.score).sum := by
  simpa [scoreSum] using foldl_add_eq (fun r => r.score) rs 0

theorem challengeTotalRevenue_eq_sum (ads : List AdBinding) :
    challengeTotalRevenue ads =
      ((ads.filter fun ad => ad.status == AdStatus.displayed).map bindingAmount).sum := by
  simpa [challengeTotalRevenue] using
    foldl_add_eq bindingAmount (ads.filter fun ad => ad.status == AdStatus.displayed) 0

theorem revenueSplit_total (R c o : ℚ) :
    (revenueSplit R c o).creator + (revenueSplit R c o).opponent +
      (revenueSplit R c o).platform = R := by
  by_cases h : 0 < c + o
  · have hne : c + o ≠ 0 := ne_of_gt h
    simp only [revenueSplit, if_pos h]
    field_simp
    ring
  · simp only [revenueSplit, if_neg h]
    ring

theorem revenueSplit_platform (R c o : ℚ) :
    (revenueSplit R c o).platform = R * (20 / 100) := by
  by_cases h : 0 < c + o <;> simp [revenueSplit, h]

theorem revenueSplit_zero_score (R : ℚ) {c o : ℚ} (h : c + o = 0) :
    (revenueSplit R c o).creator = R * (80 / 100) / 2 ∧
    (revenueSplit R c o).opponent = R * (80 / 100) / 2 := by
  have h2 : ¬ 0 < c + o := by rw [h]; exact lt_irrefl 0
  constructor <;> simp [revenueSplit, if_neg h2]

theorem revenueSplit_creator_pos (R : ℚ) {c o : ℚ} (h : 0 < c + o) :
    (revenueSplit R c o).creator = R * (80 / 100) * (c / (c + o)) := by
  have hne : c + o ≠ 0 := ne_of_gt h
  simp only [revenueSplit, if_pos h]
  rw [mul_div_assoc]
  norm_num

theorem endChallenge_ok_inv {ch : Challenge} {db : List Rating} {u t : Nat}
    {ch' : Challenge} {txns : List Transaction}
    (h : endChallenge ch db u t = Except.ok (ch', txns)) :
    isParticipant ch u = true ∧ ch.status = ChallengeStatus.live ∧
    ch' = endChallengeUpdate ch db t ∧ txns = endChallengeTxns ch db := by
  by_cases hpart : isParticipant ch u = true
  · by_cases hlive : ch.status = ChallengeStatus.live
    · rw [endChallenge, if_neg (not_not_intro hpart), if_neg (not_not_intro hlive)] at h
      injection h with h2
      rw [Prod.mk.injEq] at h2
      exact ⟨hpart, hlive, h2.1.symm, h2.2.symm⟩
    · rw [endChallenge, if_neg (not_not_intro hpart), if_pos hlive] at h
      exact Except.noConfusion h
  · rw [endChallenge, if_pos hpart] at h
    exact Except.noConfusion h

theorem submitRating_ok_inv {db : List Rating} {ch : Challenge}
    {raterId comp : Nat} {score : ℚ} {now : Nat} {st : List Rating × Challenge}
    (h : submitRating db ch raterId comp score now = Except.ok st) :
    ch.status = ChallengeStatus.live ∧
    ((comp == ch.creator) || (some comp == ch.opponent)) = true ∧
    st = (submitRatingDb db ch.id raterId comp score now,
      rescanChallenge ch (submitRatingDb db ch.id raterId comp score now)) := by
  by_cases hlive : ch.status = ChallengeStatus.live
  · by_cases hcomp : ((comp == ch.creator) || (some comp == ch.opponent)) = true
    · rw [submitRating, if_neg (not_not_intro hlive), if_neg (not_not_intro hcomp)] at h
      injection h with h2
      exact ⟨hlive, hcomp, h2.symm⟩
    · rw [submitRating, if_neg (not_not_intro hlive), if_pos hcomp] at h
      exact Except.noConfusion h
  · rw [submitRating, if_pos hlive] at h
    exact Except.noConfusion h

theorem startChallenge_ok_inv {ch : Challenge} {populate : Nat → UserDoc} {u t : Nat}
    {cb ob : Option Broadcast} {ch' : Challenge}
    (h : startChallenge ch populate u t cb ob = Except.ok ch') :
    ∃ oppId cbb obb, ch.opponent = some oppId ∧ cb = some cbb ∧ ob = some obb ∧
      isParticipant ch u = true ∧ ch.status ≠ ChallengeStatus.live ∧
      ch.status ≠ ChallengeStatus.completed ∧
      ((populate ch.creator).youtubeLinked && (populate oppId).youtubeLinked) = true ∧
      ch' = startChallengeUpdate ch t cbb obb := by
  rw [startChallenge.eq_def] at h
  split at h
  · exact Except.noConfusion h
  · rename_i hpart
    split at h
    · exact Except.noConfusion h
    · rename_i oppId hopp
      split at h
      · exact Except.noConfusion h
      · rename_i hlive
        split at h
        · exact Except.noConfusion h
        · rename_i hcomp
          split at h
          · exact Except.noConfusion h
          · rename_i hyt
            split at h
            · rename_i cbb obb
              injection h with h2
              exact ⟨oppId, cbb, obb, hopp, rfl, rfl, not_not.mp hpart, hlive, hcomp,
                not_not.mp hyt, h2.symm⟩
            · exact Except.noConfusion h

theorem challengeTotalRevenue_nil : challengeTotalRevenue [] = 0 := rfl

theorem challengeTotalRevenue_cons (b : AdBinding) (ads : List AdBinding) :
    challengeTotalRevenue (b :: ads) =
      (if b.status = AdStatus.displayed then bindingAmount b else 0) +
        challengeTotalRevenue ads := by
  by_cases hb : b.status = AdStatus.displayed
  · simp [challengeTotalRevenue_eq_sum, List.filter_cons, hb]
  · simp [challengeTotalRevenue_eq_sum, List.filter_cons, hb]

theorem rejectBinding_revenue (u adId : Nat) (reason : Option String) :
    ∀ (ads ads' : List AdBinding), rejectBinding u adId reason ads = some ads' →
      ∃ b, ads.find? (fun x => x.adId == adId) = some b ∧
        challengeTotalRevenue ads' =
          challengeTotalRevenue ads -
            (if b.status = AdStatus.displayed then bindingAmount b else 0) := by
  intro ads
  induction ads with
  | nil => intro ads' h; exact Option.noConfusion h
  | cons b bs ih =>
    intro ads' h
    rw [rejectBinding] at h
    by_cases hb : (b.adId == adId) = true
    · rw [if_pos hb] at h
      injection h with h2
      subst h2
      refine ⟨b, by simp [List.find?, hb], ?_⟩
      rw [challengeTotalRevenue_cons, challengeTotalRevenue_cons]
      have hrj : ({ b with
          status := AdStatus.rejected
          rejectedBy := some u
          rejectionReason := some (reason.getD "Conflicts with principles") } :
          AdBinding).status = AdStatus.rejected := rfl
      rw [hrj]
      simp only [reduceCtorEq, if_false]
      ring
    · rw [if_neg hb] at h
      rcases hrec : rejectBinding u adId reason bs with _ | bs'
      · rw [hrec] at h
        exact Option.noConfusion h
      · rw [hrec] at h
        simp only [Option.map_some'] at h
        injection h with h2
        subst h2
        obtain ⟨bb, hfind, hrev⟩ := ih bs' hrec
        refine ⟨bb, by simp [List.find?, hb, hfind], ?_⟩
        rw [challengeTotalRevenue_cons, challengeTotalRevenue_cons, hrev]
        ring

theorem startChallengeUpdate_status (ch : Challenge) (t : Nat) (cb ob : Broadcast) :
    (startChallengeUpdate ch t cb ob).status = ChallengeStatus.live := rfl

theorem startChallengeUpdate_opponent (ch : Challenge) (t : Nat) (cb ob : Broadcast) :
    (startChallengeUpdate ch t cb ob).opponent = ch.opponent := rfl

theorem cancelChallenge_ok_inv {ch : Challenge} {u : Nat} {adm : Bool} {ch' : Challenge}
    (h : cancelChallenge ch u adm = Except.ok ch') :
    ((ch.creator == u) || adm) = true ∧ ch.status ≠ ChallengeStatus.completed ∧
    ch' = { ch with status := ChallengeStatus.cancelled } := by
  by_cases hperm : ((ch.creator == u) || adm) = true
  · by_cases hcomp : ch.status = ChallengeStatus.completed
    · rw [cancelChallenge, if_neg (not_not_intro hperm), if_pos hcomp] at h
      exact Except.noConfusion h
    · rw [cancelChallenge, if_neg (not_not_intro hperm), if_neg hcomp] at h
      injection h with h2
      exact ⟨hperm, hcomp, h2.symm⟩
  · rw [cancelChallenge, if_pos hperm] at h
    exact Except.noConfusion h

/-! ## Claim theorems -/

/-- C1: every challenge ended via endChallenge gets a revenue distribution in
which creatorShare + opponentShare + platformShare equals totalRevenue, the
platform share is 20% of totalRevenue, and when the total score is positive
the creator share is the competitors' 80% share times creator.sum/totalScore. -/
theorem endChallenge_revenue_conservation (ch : Challenge) (db : List Rating)
    (userId now : Nat) (ch' : Challenge) (txns : List Transaction)
    (h : endChallenge ch db userId now = Except.ok (ch', txns)) :
    ∃ d, ch'.revenueDistribution = some d ∧
      d.creator + d.opponent + d.platform = ch'.totalRevenue ∧
      d.platform = ch'.totalRevenue * (20 / 100) ∧
      (0 < scoreSum (creatorRatingsOf ch db) + scoreSum (opponentRatingsOf ch db) →
        d.creator = ch'.totalRevenue * (80 / 100) *
          (scoreSum (creatorRatingsOf ch db) /
            (scoreSum (creatorRatingsOf ch db) + scoreSum (opponentRatingsOf ch db)))) := by
  obtain ⟨-, -, rfl, -⟩ := endChallenge_ok_inv h
  refine ⟨_, rfl, ?_, ?_, ?_⟩
  · exact revenueSplit_total _ _ _
  · exact revenueSplit_platform _ _ _
  · intro hpos
    exact revenueSplit_creator_pos _ hpos

/-- Witness for C1: the worked scenario (3 displayed ads totaling 100, creator
sum 9, opponent sum 3) ends with distribution platform 20, creator 60,
opponent 20, and the conservation property instantiates there. -/
theorem endChallenge_revenue_conservation_witness :
    endChallenge c1Challenge c1Ratings 1 777 = Except.ok (c1After, c1Txns) ∧
    c1After.revenueDistribution = some ⟨20, 60, 20⟩ ∧
    c1After.totalRevenue = 100 ∧
    (∃ d, c1After.revenueDistribution = some d ∧
      d.creator + d.opponent + d.platform = c1After.totalRevenue ∧
      d.platform = c1After.totalRevenue * (20 / 100) ∧
      (0 < scoreSum (creatorRatingsOf c1Challenge c1Ratings) +
          scoreSum (opponentRatingsOf c1Challenge c1Ratings) →
        d.creator = c1After.totalRevenue * (80 / 100) *
          (scoreSum (creatorRatingsOf c1Challenge c1Ratings) /
            (scoreSum (creatorRatingsOf c1Challenge c1Ratings) +
              scoreSum (opponentRatingsOf c1Challenge c1Ratings))))) := by
  have hrun : endChallenge c1Challenge c1Ratings 1 777 = Except.ok (c1After, c1Txns) := by
    norm_num [endChallenge, isParticipant, c1Challenge, c1Ratings, baseChallenge, c1After, c1Txns]
  refine ⟨hrun, ?_, ?_,
    endChallenge_revenue_conservation c1Challenge c1Ratings 1 777 c1After c1Txns hrun⟩
  · norm_num [c1After, c1Challenge, c1Ratings, baseChallenge, endChallenge, isParticipant,
      endChallengeUpdate, revenueSplit, challengeTotalRevenue, bindingAmount, scoreSum,
      creatorRatingsOf, opponentRatingsOf]
  · norm_num [c1After, c1Challenge, c1Ratings, baseChallenge, endChallenge, isParticipant,
      endChallengeUpdate, revenueSplit, challengeTotalRevenue, bindingAmount, scoreSum,
      creatorRatingsOf, opponentRatingsOf]

/-- C7: when the combined rating score is zero at endChallenge, creator and
opponent each receive exactly half of the competitors' share
(totalRevenue * 80% / 2). -/
theorem endChallenge_zero_score_equal_split (ch : Challenge) (db : List Rating)
    (userId now : Nat) (ch' : Challenge) (txns : List Transaction)
    (h : endChallenge ch db userId now = Except.ok (ch', txns))
    (hz : scoreSum (creatorRatingsOf ch db) + scoreSum (opponentRatingsOf ch db) = 0) :
    ∃ d, ch'.revenueDistribution = some d ∧
      d.creator = ch'.totalRevenue * (80 / 100) / 2 ∧
      d.opponent = ch'.totalRevenue * (80 / 100) / 2 ∧
      d.platform = ch'.totalRevenue * (20 / 100) := by
  obtain ⟨-, -, rfl, -⟩ := endChallenge_ok_inv h
  obtain ⟨h1, h2⟩ := revenueSplit_zero_score (challengeTotalRevenue ch.advertisements) hz
  exact ⟨_, rfl, h1, h2, revenueSplit_platform _ _ _⟩

/-- Witness for C7: totalRevenue 50 and no ratings yields platform 10 and 20
for each competitor. -/
theorem endChallenge_zero_score_equal_split_witness :
    endChallenge c7Challenge [] 1 888 = Except.ok (c7After, endChallengeTxns c7Challenge []) ∧
    c7After.revenueDistribution = some ⟨10, 20, 20⟩ ∧
    c7After.totalRevenue = 50 ∧
    (∃ d, c7After.revenueDistribution = some d ∧
      d.creator = c7After.totalRevenue * (80 / 100) / 2 ∧
      d.opponent = c7After.totalRevenue * (80 / 100) / 2 ∧
      d.platform = c7After.totalRevenue * (20 / 100)) := by
  have hrun : endChallenge c7Challenge [] 1 888 =
      Except.ok (c7After, endChallengeTxns c7Challenge []) := by
    norm_num [endChallenge, isParticipant, c7Challenge, baseChallenge, c7After]
  have hz : scoreSum (creatorRatingsOf c7Challenge []) +
      scoreSum (opponentRatingsOf c7Challenge []) = 0 := by
    norm_num [scoreSum, creatorRatingsOf, opponentRatingsOf]
  refine ⟨hrun, ?_, ?_,
    endChallenge_zero_score_equal_split c7Challenge [] 1 888 c7After
      (endChallengeTxns c7Challenge []) hrun hz⟩
  · norm_num [c7After, c7Challenge, baseChallenge, endChallenge, isParticipant,
      endChallengeUpdate, revenueSplit, challengeTotalRevenue, bindingAmount, scoreSum,
      creatorRatingsOf, opponentRatingsOf]
  · norm_num [c7After, c7Challenge, baseChallenge, endChallenge, isParticipant,
      endChallengeUpdate, revenueSplit, challengeTotalRevenue, bindingAmount, scoreSum,
      creatorRatingsOf, opponentRatingsOf]

/-- C10: after every successful submitRating call the stored totalRatings
equals creatorRatingCount + opponentRatingCount, and each stored counter
equals the rescan of the Rating collection for that participant. -/
theorem submitRating_counters_consistent (db : List Rating) (ch : Challenge)
    (raterId comp : Nat) (score : ℚ) (now : Nat) (db' : List Rating) (ch' : Challenge)
    (h : submitRating db ch raterId comp score now = Except.ok (db', ch')) :
    ch'.totalRatings = ch'.creatorRatingCount + ch'.opponentRatingCount ∧
    ch'.creatorRatingCount = (creatorRatingsOf ch' db').length ∧
    ch'.opponentRatingCount = (opponentRatingsOf ch' db').length ∧
    ch'.creatorRatingSum = scoreSum (creatorRatingsOf ch' db') ∧
    ch'.opponentRatingSum = scoreSum (opponentRatingsOf ch' db') := by
  obtain ⟨-, -, hst⟩ := submitRating_ok_inv h
  rw [Prod.mk.injEq] at hst
  obtain ⟨rfl, rfl⟩ := hst
  exact ⟨rfl, rfl, rfl, rfl, rfl⟩

/-- Witness for C10 at a concrete first rating. -/
theorem submitRating_counters_consistent_witness :
    submitRating [] c2Challenge 10 1 4 0 = Except.ok (c10Db, c10Ch) ∧
    (c10Ch.totalRatings = c10Ch.creatorRatingCount + c10Ch.opponentRatingCount ∧
     c10Ch.creatorRatingCount = (creatorRatingsOf c10Ch c10Db).length ∧
     c10Ch.opponentRatingCount = (opponentRatingsOf c10Ch c10Db).length ∧
     c10Ch.creatorRatingSum = scoreSum (creatorRatingsOf c10Ch c10Db) ∧
     c10Ch.opponentRatingSum = scoreSum (opponentRatingsOf c10Ch c10Db)) := by
  have hrun : submitRating [] c2Challenge 10 1 4 0 = Except.ok (c10Db, c10Ch) := by
    norm_num [submitRating, c2Challenge, baseChallenge, c10Db, c10Ch]
  exact ⟨hrun, submitRating_counters_consistent [] c2Challenge 10 1 4 0 c10Db c10Ch hrun⟩

/-- C4: a participant starting a challenge with no opponent gets NoOpponent; a
participant starting an already-live challenge gets AlreadyLive (so a second
simultaneous start fails); ending a non-live challenge gets NotLive, hence the
revenue computation runs at most once. -/
theorem challenge_guard_errors :
    (∀ (ch : Challenge) (populate : Nat → UserDoc) (u t : Nat) (cb ob : Option Broadcast),
      ch.creator = u → ch.opponent = none →
      startChallenge ch populate u t cb ob = Except.error ApiError.noOpponent) ∧
    (∀ (ch : Challenge) (populate : Nat → UserDoc) (u t : Nat) (cb ob : Option Broadcast)
        (o : Nat),
      isParticipant ch u = true → ch.opponent = some o →
      ch.status = ChallengeStatus.live →
      startChallenge ch populate u t cb ob = Except.error ApiError.alreadyLive) ∧
    (∀ (ch : Challenge) (db : List Rating) (u t : Nat),
      isParticipant ch u = true → ch.status ≠ ChallengeStatus.live →
      endChallenge ch db u t = Except.error ApiError.notLive) ∧
    (∀ (ch : Challenge) (populate populate2 : Nat → UserDoc) (u t : Nat)
        (cb ob : Option Broadcast) (ch' : Challenge) (u2 t2 : Nat)
        (cb2 ob2 : Option Broadcast),
      startChallenge ch populate u t cb ob = Except.ok ch' →
      isParticipant ch' u2 = true →
      startChallenge ch' populate2 u2 t2 cb2 ob2 = Except.error ApiError.alreadyLive) := by
  refine ⟨?_, ?_, ?_, ?_⟩
  · intro ch populate u t cb ob h1 h2
    simp [startChallenge.eq_def, isParticipant, h1, h2]
  · intro ch populate u t cb ob o hpart hopp hlive
    simp [startChallenge.eq_def, hpart, hopp, hlive]
  · intro ch db u t hpart hnl
    simp [endChallenge, hpart, hnl]
  · intro ch populate populate2 u t cb ob ch' u2 t2 cb2 ob2 hok hpart2
    obtain ⟨oppId, cbb, obb, hopp, -, -, -, -, -, -, rfl⟩ := startChallenge_ok_inv hok
    simp [startChallenge.eq_def, hpart2, startChallengeUpdate_status,
      startChallengeUpdate_opponent, hopp]

/-- Witness for C4 at concrete challenges: a missing opponent, an already-live
challenge, a scheduled challenge being ended, and a successful start followed
by a second start. -/
theorem challenge_guard_errors_witness :
    startChallenge c4NoOpponent allLinked 1 0 (some cBroadcast) (some oBroadcast) =
      Except.error ApiError.noOpponent ∧
    startChallenge c4Live allLinked 1 0 (some cBroadcast) (some oBroadcast) =
      Except.error ApiError.alreadyLive ∧
    endChallenge c4Scheduled [] 1 0 = Except.error ApiError.notLive ∧
    (startChallenge c4Scheduled allLinked 1 0 (some cBroadcast) (some oBroadcast) =
      Except.ok c4Started ∧
     startChallenge c4Started allLinked 2 1 (some cBroadcast) (some oBroadcast) =
      Except.error ApiError.alreadyLive) := by
  have hstart : startChallenge c4Scheduled allLinked 1 0 (some cBroadcast) (some oBroadcast) =
      Except.ok c4Started := by
    simp [startChallenge.eq_def, isParticipant, c4Scheduled, baseChallenge, allLinked,
      c4Started, startChallengeState]
  refine ⟨challenge_guard_errors.1 c4NoOpponent allLinked 1 0 (some cBroadcast)
      (some oBroadcast) rfl rfl,
    challenge_guard_errors.2.1 c4Live allLinked 1 0 (some cBroadcast) (some oBroadcast) 2
      (by decide) rfl rfl,
    challenge_guard_errors.2.2.1 c4Scheduled [] 1 0 (by decide) (by decide),
    hstart,
    challenge_guard_errors.2.2.2 c4Scheduled allLinked allLinked 1 0 (some cBroadcast)
      (some oBroadcast) c4Started 2 1 (some cBroadcast) (some oBroadcast) hstart (by decide)⟩

/-- C5 counterexample: cancelChallenge succeeds on a live challenge (the code
only refuses completed challenges), and startChallenge moves a cancelled
challenge back to live, contradicting the claimed forward-only lifecycle. -/
theorem lifecycle_claim_counterexample :
    c5Live.status = ChallengeStatus.live ∧
    cancelChallenge c5Live 1 false =
      Except.ok { c5Live with status := ChallengeStatus.cancelled } ∧
    c5Cancelled.status = ChallengeStatus.cancelled ∧
    startChallenge c5Cancelled allLinked 1 9 (some cBroadcast) (some oBroadcast) =
      Except.ok c5Restarted ∧
    c5Restarted.status = ChallengeStatus.live := by
  refine ⟨rfl, ?_, rfl, ?_, ?_⟩
  · simp [cancelChallenge, c5Live, baseChallenge]
  · simp [startChallenge.eq_def, isParticipant, c5Cancelled, baseChallenge, allLinked,
      c5Restarted, startChallengeState]
  · simp [c5Restarted, startChallengeState, startChallenge.eq_def, isParticipant,
      c5Cancelled, baseChallenge, allLinked, startChallengeUpdate]

/-- C5 amended: the actual transition graph of the code.  completed is the
only terminal state: cancelChallenge refuses exactly the completed status and
otherwise (including live and cancelled) writes cancelled; startChallenge
succeeds only from a non-live, non-completed status (including cancelled) and
writes live; endChallenge succeeds only from live and writes completed. -/
theorem lifecycle_transitions_amended :
    (∀ (ch : Challenge) (u : Nat) (adm : Bool),
      ((ch.creator == u) || adm) = true → ch.status = ChallengeStatus.completed →
      cancelChallenge ch u adm = Except.error ApiError.cannotCancel) ∧
    (∀ (ch : Challenge) (u : Nat) (adm : Bool) (ch' : Challenge),
      cancelChallenge ch u adm = Except.ok ch' →
      ch.status ≠ ChallengeStatus.completed ∧ ch'.status = ChallengeStatus.cancelled) ∧
    (∀ (ch : Challenge) (populate : Nat → UserDoc) (u t : Nat) (cb ob : Option Broadcast)
        (ch' : Challenge),
      startChallenge ch populate u t cb ob = Except.ok ch' →
      ch.status ≠ ChallengeStatus.live ∧ ch.status ≠ ChallengeStatus.completed ∧
      ch'.status = ChallengeStatus.live) ∧
    (∀ (ch : Challenge) (db : List Rating) (u t : Nat) (ch' : Challenge)
        (txns : List Transaction),
      endChallenge ch db u t = Except.ok (ch', txns) →
      ch.status = ChallengeStatus.live ∧ ch'.status = ChallengeStatus.completed) := by
  refine ⟨?_, ?_, ?_, ?_⟩
  · intro ch u adm hperm hcomp
    simp [cancelChallenge, hperm, hcomp]
  · intro ch u adm ch' h
    obtain ⟨-, hne, rfl⟩ := cancelChallenge_ok_inv h
    exact ⟨hne, rfl⟩
  · intro ch populate u t cb ob ch' h
    obtain ⟨oppId, cbb, obb, -, -, -, -, hlive, hcomp, -, rfl⟩ := startChallenge_ok_inv h
    exact ⟨hlive, hcomp, rfl⟩
  · intro ch db u t ch' txns h
    obtain ⟨-, hlive, rfl, -⟩ := endChallenge_ok_inv h
    exact ⟨hlive, rfl⟩

/-- Witness for C5 amended at concrete challenges: a completed challenge will
not cancel; a live challenge cancels to cancelled; a cancelled challenge
starts to live; a live challenge ends to completed. -/
theorem lifecycle_transitions_amended_witness :
    cancelChallenge c5Completed 1 false = Except.error ApiError.cannotCancel ∧
    (c5Completed.status ≠ ChallengeStatus.completed → False) ∧
    (cancelChallenge c5Live 1 false =
      Except.ok { c5Live with status := ChallengeStatus.cancelled } ∧
     c5Live.status ≠ ChallengeStatus.completed ∧
     ({ c5Live with status := ChallengeStatus.cancelled } : Challenge).status =
       ChallengeStatus.cancelled) ∧
    (startChallenge c5Cancelled allLinked 1 9 (some cBroadcast) (some oBroadcast) =
      Except.ok c5Restarted ∧
     c5Cancelled.status ≠ ChallengeStatus.live ∧
     c5Cancelled.status ≠ ChallengeStatus.completed ∧
     c5Restarted.status = ChallengeStatus.live) ∧
    (endChallenge c4Live [] 1 0 = Except.ok (c5EndCh, c5EndTx) ∧
     c4Live.status = ChallengeStatus.live ∧
     c5EndCh.status = ChallengeStatus.completed) := by
  have hcancel : cancelChallenge c5Live 1 false =
      Except.ok { c5Live with status := ChallengeStatus.cancelled } := by
    simp [cancelChallenge, c5Live, baseChallenge]
  have hstart : startChallenge c5Cancelled allLinked 1 9 (some cBroadcast) (some oBroadcast) =
      Except.ok c5Restarted := by
    simp [startChallenge.eq_def, isParticipant, c5Cancelled, baseChallenge, allLinked,
      c5Restarted, startChallengeState]
  have hend : endChallenge c4Live [] 1 0 = Except.ok (c5EndCh, c5EndTx) := by
    norm_num [endChallenge, isParticipant, c4Live, baseChallenge, c5EndCh, c5EndTx]
  refine ⟨lifecycle_transitions_amended.1 c5Completed 1 false (by decide) rfl,
    fun hne => hne rfl,
    ⟨hcancel, (lifecycle_transitions_amended.2.1 c5Live 1 false _ hcancel).1,
      (lifecycle_transitions_amended.2.1 c5Live 1 false _ hcancel).2⟩,
    ⟨hstart, (lifecycle_transitions_amended.2.2.1 c5Cancelled allLinked 1 9 _ _ _ hstart).1,
      (lifecycle_transitions_amended.2.2.1 c5Cancelled allLinked 1 9 _ _ _ hstart).2.1,
      (lifecycle_transitions_amended.2.2.1 c5Cancelled allLinked 1 9 _ _ _ hstart).2.2⟩,
    ⟨hend, rfl, (lifecycle_transitions_amended.2.2.2 c4Live [] 1 0 _ _ hend).2⟩⟩

/-- C6: if either createLiveBroadcast call fails, startChallenge never returns
a success, the stored challenge record is exactly the prior record (no status
move, no stream url, key, broadcast id or startedAt write), and when every
guard before the external call passes the reported error is the dependency
failure (YOUTUBE_API_ERROR). -/
theorem start_provider_failure_no_partial_commit :
    (∀ (ch : Challenge) (populate : Nat → UserDoc) (u t : Nat) (cb ob : Option Broadcast),
      cb = none ∨ ob = none →
      startChallengeState ch populate u t cb ob = ch ∧
      ∀ ch', startChallenge ch populate u t cb ob ≠ Except.ok ch') ∧
    (∀ (ch : Challenge) (populate : Nat → UserDoc) (u t : Nat) (cb ob : Option Broadcast)
        (oppId : Nat),
      isParticipant ch u = true → ch.opponent = some oppId →
      ch.status ≠ ChallengeStatus.live → ch.status ≠ ChallengeStatus.completed →
      (populate ch.creator).youtubeLinked = true → (populate oppId).youtubeLinked = true →
      cb = none ∨ ob = none →
      startChallenge ch populate u t cb ob = Except.error ApiError.youtubeApiError) := by
  constructor
  · intro ch populate u t cb ob hfail
    have hnok : ∀ ch', startChallenge ch populate u t cb ob ≠ Except.ok ch' := by
      intro ch' hok
      obtain ⟨oppId, cbb, obb, -, hcb, hob, -⟩ := startChallenge_ok_inv hok
      rcases hfail with rfl | rfl
      · exact Option.noConfusion hcb
      · exact Option.noConfusion hob
    refine ⟨?_, hnok⟩
    unfold startChallengeState
    rcases hres : startChallenge ch populate u t cb ob with e | ch'
    · rfl
    · exact absurd hres (hnok ch')
  · intro ch populate u t cb ob oppId hpart hopp hlive hcomp hyt1 hyt2 hfail
    rcases hfail with rfl | rfl
    · simp [startChallenge.eq_def, hpart, hopp, hlive, hcomp, hyt1, hyt2]
    · rcases cb with _ | cbb <;>
        simp [startChallenge.eq_def, hpart, hopp, hlive, hcomp, hyt1, hyt2]

/-- Witness for C6: a scheduled challenge whose creator starts it while the
opponent's broadcast creation fails stays exactly as it was and the call
reports the dependency error. -/
theorem start_provider_failure_no_partial_commit_witness :
    (startChallengeState c4Scheduled allLinked 1 0 (some cBroadcast) none = c4Scheduled ∧
     ∀ ch', startChallenge c4Scheduled allLinked 1 0 (some cBroadcast) none ≠
       Except.ok ch') ∧
    startChallenge c4Scheduled allLinked 1 0 (some cBroadcast) none =
      Except.error ApiError.youtubeApiError :=
  ⟨start_provider_failure_no_partial_commit.1 c4Scheduled allLinked 1 0 (some cBroadcast)
      none (Or.inr rfl),
   start_provider_failure_no_partial_commit.2 c4Scheduled allLinked 1 0 (some cBroadcast)
      none 2 (by decide) rfl (by decide) (by decide) rfl rfl (Or.inr rfl)⟩

/-- C3: endChallenge's totalRevenue is the sum over bindings whose status is
displayed at computation time — a binding contributes its paidAmount exactly
when displayed and contributes 0 for any other status regardless of
paidAmount — and after a successful rejectAdvertisement the first binding
carrying that adId no longer contributes (its prior displayed contribution is
subtracted), so a previously displayed and paid ad is excluded. -/
theorem totalRevenue_displayed_only :
    (∀ (ch : Challenge) (db : List Rating) (u t : Nat) (ch' : Challenge)
        (txns : List Transaction),
      endChallenge ch db u t = Except.ok (ch', txns) →
      ch'.totalRevenue = challengeTotalRevenue ch.advertisements) ∧
    (∀ (b : AdBinding) (ads : List AdBinding),
      challengeTotalRevenue (b :: ads) =
        (if b.status = AdStatus.displayed then bindingAmount b else 0) +
          challengeTotalRevenue ads) ∧
    (∀ (ch : Challenge) (u adId : Nat) (reason : Option String) (ch' : Challenge),
      rejectAdvertisement ch u adId reason = Except.ok ch' →
      ∃ b, ch.advertisements.find? (fun x => x.adId == adId) = some b ∧
        challengeTotalRevenue ch'.advertisements =
          challengeTotalRevenue ch.advertisements -
            (if b.status = AdStatus.displayed then bindingAmount b else 0)) := by
  refine ⟨?_, challengeTotalRevenue_cons, ?_⟩
  · intro ch db u t ch' txns h
    obtain ⟨-, -, rfl, -⟩ := endChallenge_ok_inv h
    rfl
  · intro ch u adId reason ch' h
    rw [rejectAdvertisement.eq_def] at h
    split at h
    · exact Except.noConfusion h
    · split at h
      · exact Except.noConfusion h
      · rename_i ads' hrb
        injection h with h2
        subst h2
        exact rejectBinding_revenue u adId reason ch.advertisements ads' hrb

/-- Witness for C3: a pending paid ad contributes nothing next to two
displayed ads totaling 50, and rejecting the displayed 40-paid ad leaves
revenue 10. -/
theorem totalRevenue_displayed_only_witness :
    (endChallenge c1Challenge c1Ratings 1 777 = Except.ok (c1After, c1Txns) ∧
     c1After.totalRevenue = challengeTotalRevenue c1Challenge.advertisements) ∧
    (challengeTotalRevenue (c3PendingAd :: c3Challenge.advertisements) =
      (if c3PendingAd.status = AdStatus.displayed then bindingAmount c3PendingAd else 0) +
        challengeTotalRevenue c3Challenge.advertisements ∧
     challengeTotalRevenue (c3PendingAd :: c3Challenge.advertisements) = 50) ∧
    (rejectAdvertisement c3Challenge 1 7 none = Except.ok c3After ∧
     challengeTotalRevenue c3Challenge.advertisements = 50 ∧
     challengeTotalRevenue c3After.advertisements = 10 ∧
     (∃ b, c3Challenge.advertisements.find? (fun x => x.adId == 7) = some b ∧
       challengeTotalRevenue c3After.advertisements =
         challengeTotalRevenue c3Challenge.advertisements -
           (if b.status = AdStatus.displayed then bindingAmount b else 0))) := by
  have hrun : endChallenge c1Challenge c1Ratings 1 777 = Except.ok (c1After, c1Txns) := by
    norm_num [endChallenge, isParticipant, c1Challenge, c1Ratings, baseChallenge, c1After,
      c1Txns]
  have hrej : rejectAdvertisement c3Challenge 1 7 none = Except.ok c3After := by
    simp [rejectAdvertisement.eq_def, isParticipant, c3Challenge, baseChallenge, c3After,
      rejectBinding]
  refine ⟨⟨hrun, totalRevenue_displayed_only.1 _ _ _ _ _ _ hrun⟩,
    ⟨totalRevenue_displayed_only.2.1 c3PendingAd c3Challenge.advertisements, ?_⟩,
    hrej, ?_, ?_, totalRevenue_displayed_only.2.2 c3Challenge 1 7 none c3After hrej⟩
  · norm_num [challengeTotalRevenue_cons, challengeTotalRevenue_nil, c3PendingAd,
      c3Challenge, baseChallenge, bindingAmount]
    all_goals decide
  · norm_num [challengeTotalRevenue_cons, challengeTotalRevenue_nil, c3Challenge,
      baseChallenge, bindingAmount]
  · norm_num [c3After, rejectAdvertisement.eq_def, isParticipant, rejectBinding, c3Challenge,
      baseChallenge, challengeTotalRevenue_cons, challengeTotalRevenue_nil, bindingAmount]
    all_goals decide

/-- C8 counterexample: the submitRating controller performs no self-rating
check — the creator of a live challenge successfully submits a rating for the
opponent instead of receiving a SelfRating error. -/
theorem submitRating_selfrating_counterexample :
    isParticipant c8Challenge 1 = true ∧ c8Challenge.status = ChallengeStatus.live ∧
    ratingOpSucceeds [] c8Challenge 1 2 5 0 = true := by
  refine ⟨by decide, rfl, ?_⟩
  simp [ratingOpSucceeds, submitRating, c8Challenge, baseChallenge]

/-- C8 amended: the self-rating rejection is enforced by the addRating
controller, not by submitRating: whenever the rater is one of the challenge
participants, addRating returns the self-rating error before any record is
created or any counter recomputed (an error result carries no new state). -/
theorem addRating_selfRating_guard (db : List RatingP) (ch : ChallengeP)
    (userId participant : Nat) (score : ℚ) (comment : Option String)
    (hlive : ch.status = ChallengeStatus.live)
    (hself : ch.participants.any (fun p => p.user == userId) = true) :
    addRating db ch userId participant score comment =
      Except.error ApiError.selfRating := by
  simp [addRating, hlive, hself]

/-- Witness for C8 amended: participant 1 of the live challenge tries to rate
participant 2 through addRating and is refused. -/
theorem addRating_selfRating_guard_witness :
    c8ChallengeP.status = ChallengeStatus.live ∧
    c8ChallengeP.participants.any (fun p => p.user == 1) = true ∧
    addRating [] c8ChallengeP 1 2 4 none = Except.error ApiError.selfRating :=
  ⟨rfl, by decide, addRating_selfRating_guard [] c8ChallengeP 1 2 4 none rfl (by decide)⟩

/-- C9 counterexample: a concrete firing of the 5-second tick emits a payload
holding challengeId, viewerCount and timestamp only — there is no peakViewers
field in it. -/
theorem tick_payload_counterexample :
    periodicViewerCountTick [("challenge:xyz", [5, 6, 7])] 99 =
      [("challenge:xyz", viewerCountUpdatePayload "xyz" 3 99)] ∧
    List.lookup "peakViewers" (viewerCountUpdatePayload "xyz" 3 99) = none ∧
    List.lookup "viewerCount" (viewerCountUpdatePayload "xyz" 3 99) =
      some (SocketValue.nat 3) := by
  refine ⟨?_, ?_, ?_⟩ <;> decide

/-- C9 amended: the tick interval is 5000 ms; every adapter room named
challenge:* (adapter rooms exist only while non-empty) receives a
viewer_count_update built from its current size; and the payload carries
challengeId and viewerCount but no peakViewers field (nothing in the socket
layer ever writes the challenge document's peakViewers). -/
theorem tick_emits_current_viewer_count :
    tickIntervalMs = 5000 ∧
    (∀ (rooms : List (String × List Nat)) (now : Nat) (name : String)
        (members : List Nat),
      (name, members) ∈ rooms → strStartsWith name "challenge:" = true →
      (name, viewerCountUpdatePayload (roomChallengeId name) members.length now) ∈
        periodicViewerCountTick rooms now) ∧
    (∀ (cid : String) (n t : Nat),
      List.lookup "peakViewers" (viewerCountUpdatePayload cid n t) = none ∧
      List.lookup "viewerCount" (viewerCountUpdatePayload cid n t) =
        some (SocketValue.nat n) ∧
      List.lookup "challengeId" (viewerCountUpdatePayload cid n t) =
        some (SocketValue.str cid)) := by
  refine ⟨rfl, ?_, ?_⟩
  · intro rooms now name members hmem hpre
    unfold periodicViewerCountTick
    exact List.mem_map.mpr ⟨(name, members), List.mem_filter.mpr ⟨hmem, hpre⟩, rfl⟩
  · intro cid n t
    refine ⟨?_, ?_, ?_⟩ <;> simp [viewerCountUpdatePayload, List.lookup]

/-- Witness for C9 amended at a concrete room of two viewers. -/
theorem tick_emits_current_viewer_count_witness :
    ("challenge:abc", [4, 5]) ∈ [("challenge:abc", [4, 5])] ∧
    strStartsWith "challenge:abc" "challenge:" = true ∧
    ("challenge:abc",
      viewerCountUpdatePayload (roomChallengeId "challenge:abc") ([4, 5] : List Nat).length 11) ∈
      periodicViewerCountTick [("challenge:abc", [4, 5])] 11 ∧
    List.lookup "peakViewers" (viewerCountUpdatePayload "abc" 2 11) = none := by
  refine ⟨List.mem_singleton.mpr rfl, by decide, ?_, ?_⟩
  · exact tick_emits_current_viewer_count.2.1 [("challenge:abc", [4, 5])] 11
      "challenge:abc" [4, 5] (List.mem_singleton.mpr rfl) (by decide)
  · exact (tick_emits_current_viewer_count.2.2 "abc" 2 11).1

/-! ## Rating-sequence machinery (C2) -/

theorem applyRatingOps_nil (st : List Rating × Challenge) : applyRatingOps st [] = st := rfl

theorem applyRatingOps_cons (st : List Rating × Challenge) (s : RatingSubmission)
    (rest : List RatingSubmission) :
    applyRatingOps st (s :: rest) =
      applyRatingOps
        (match submitRating st.1 st.2 s.rater s.competitorRated s.score s.time with
         | .ok st' => st'
         | .error _ => st) rest := rfl

theorem submitRating_eq_ok (db : List Rating) (ch : Challenge) (raterId comp : Nat)
    (score : ℚ) (now : Nat) (hlive : ch.status = ChallengeStatus.live)
    (hcomp : ((comp == ch.creator) || (some comp == ch.opponent)) = true) :
    submitRating db ch raterId comp score now =
      Except.ok (submitRatingDb db ch.id raterId comp score now,
        rescanChallenge ch (submitRatingDb db ch.id raterId comp score now)) := by
  rw [submitRating, if_neg (not_not_intro hlive), if_neg (not_not_intro hcomp)]

theorem rescanChallenge_rescan (ch : Challenge) (d0 d : List Rating) :
    rescanChallenge (rescanChallenge ch d0) d = rescanChallenge ch d := rfl

theorem rescanChallenge_id (ch : Challenge) (d : List Rating) :
    (rescanChallenge ch d).id = ch.id := rfl

theorem rescanChallenge_creator (ch : Challenge) (d : List Rating) :
    (rescanChallenge ch d).creator = ch.creator := rfl

theorem rescanChallenge_opponent (ch : Challenge) (d : List Rating) :
    (rescanChallenge ch d).opponent = ch.opponent := rfl

theorem rescanChallenge_status (ch : Challenge) (d : List Rating) :
    (rescanChallenge ch d).status = ch.status := rfl

theorem rescanChallenge_nil (ch : Challenge) (h1 : ch.creatorRatingSum = 0)
    (h2 : ch.creatorRatingCount = 0) (h3 : ch.opponentRatingSum = 0)
    (h4 : ch.opponentRatingCount = 0) (h5 : ch.totalRatings = 0) :
    rescanChallenge ch [] = ch := by
  cases ch
  simp_all [rescanChallenge, creatorRatingsOf, opponentRatingsOf, scoreSum]

theorem ratingKeyMatch_iff (chId raterId comp : Nat) (r : Rating) :
    ratingKeyMatch chId raterId comp r = true ↔
      ratingKey r = (chId, raterId, comp) := by
  simp [ratingKeyMatch, ratingKey, Prod.ext_iff, and_assoc]

theorem updateFirst_map_key {α β : Type} (g : α → β) (p : α → Bool) (f : α → α)
    (hf : ∀ a, g (f a) = g a) :
    ∀ l : List α, (updateFirst p f l).map g = l.map g := by
  intro l
  induction l with
  | nil => rfl
  | cons a rest ih =>
    rw [updateFirst]
    by_cases ha : p a = true
    · rw [if_pos ha]
      simp [hf]
    · rw [if_neg ha]
      simp only [List.map_cons, ih]

theorem submitRatingDb_keysNodup (db : List Rating) (chId raterId comp : Nat)
    (score : ℚ) (now : Nat) (h : ratingKeysNodup db) :
    ratingKeysNodup (submitRatingDb db chId raterId comp score now) := by
  unfold submitRatingDb
  by_cases hf : (db.find? (ratingKeyMatch chId raterId comp)).isSome = true
  · rw [if_pos hf]
    unfold ratingKeysNodup
    rw [updateFirst_map_key ratingKey (ratingKeyMatch chId raterId comp)
      (fun r => { r with score := score, timestamp := now }) (fun r => rfl)]
    exact h
  · rw [if_neg hf]
    unfold ratingKeysNodup
    rw [List.map_append]
    refine List.Nodup.append h (List.nodup_singleton _) ?_
    intro k hk1 hk2
    rw [List.map_singleton, List.mem_singleton] at hk2
    subst hk2
    rw [List.mem_map] at hk1
    obtain ⟨r, hrmem, hrkey⟩ := hk1
    have hmatch : ratingKeyMatch chId raterId comp r = true :=
      (ratingKeyMatch_iff chId raterId comp r).mpr hrkey
    have hnone : db.find? (ratingKeyMatch chId raterId comp) = none := by
      rcases hopt : db.find? (ratingKeyMatch chId raterId comp) with _ | v
      · rfl
      · exact absurd (by rw [hopt]; rfl) hf
    exact absurd hmatch (List.find?_eq_none.mp hnone r hrmem)

theorem foldDb_keysNodup (chId : Nat) :
    ∀ (subs : List RatingSubmission) (db : List Rating), ratingKeysNodup db →
      ratingKeysNodup (subs.foldl
        (fun d s => submitRatingDb d chId s.rater s.competitorRated s.score s.time) db) := by
  intro subs
  induction subs with
  | nil => intro db h; exact h
  | cons s rest ih =>
    intro db h
    rw [List.foldl_cons]
    exact ih _ (submitRatingDb_keysNodup db chId s.rater s.competitorRated s.score s.time h)

theorem upsertScore_of_not_mem (k : Nat) (v : ℚ) :
    ∀ m : List (Nat × ℚ), k ∉ m.map Prod.fst → upsertScore k v m = m ++ [(k, v)] := by
  intro m
  induction m with
  | nil => intro _; rfl
  | cons a rest ih =>
    intro hk
    obtain ⟨k1, v1⟩ := a
    rw [List.map_cons, List.mem_cons] at hk
    push_neg at hk
    rw [upsertScore, if_neg (by simp only [beq_iff_eq]; exact fun e => hk.1 e.symm)]
    rw [List.cons_append]
    exact congrArg _ (ih hk.2)

theorem mem_fst_upsertScore (k : Nat) (v : ℚ) (a : Nat) :
    ∀ m : List (Nat × ℚ),
      a ∈ (upsertScore k v m).map Prod.fst → a = k ∨ a ∈ m.map Prod.fst := by
  intro m
  induction m with
  | nil => intro h; simp [upsertScore] at h; exact Or.inl h
  | cons x rest ih =>
    obtain ⟨k1, v1⟩ := x
    intro h
    rw [upsertScore] at h
    by_cases hk : (k1 == k) = true
    · rw [if_pos hk] at h
      rw [List.map_cons, List.mem_cons] at h
      rcases h with h | h
      · exact Or.inl h
      · exact Or.inr (by simp [h])
    · rw [if_neg hk] at h
      rw [List.map_cons, List.mem_cons] at h
      rcases h with h | h
      · exact Or.inr (by simp [h])
      · rcases ih h with h2 | h2
        · exact Or.inl h2
        · exact Or.inr (by simp [h2])

theorem upsertScore_fst_nodup (k : Nat) (v : ℚ) :
    ∀ m : List (Nat × ℚ), (m.map Prod.fst).Nodup →
      ((upsertScore k v m).map Prod.fst).Nodup := by
  intro m
  induction m with
  | nil => intro _; simp [upsertScore]
  | cons x rest ih =>
    obtain ⟨k1, v1⟩ := x
    intro h
    rw [List.map_cons, List.nodup_cons] at h
    rw [upsertScore]
    by_cases hk : (k1 == k) = true
    · rw [if_pos hk]
      rw [List.map_cons, List.nodup_cons]
      have hkk : k1 = k := by simpa using hk
      exact ⟨by rw [← hkk]; exact h.1, h.2⟩
    · rw [if_neg hk]
      rw [List.map_cons, List.nodup_cons]
      refine ⟨?_, ih h.2⟩
      intro hmem
      rcases mem_fst_upsertScore k v k1 rest hmem with h2 | h2
      · exact hk (by simp [h2])
      · exact h.1 h2

theorem foldSpec_fst_nodup (p : Nat) :
    ∀ (subs : List RatingSubmission) (m : List (Nat × ℚ)), (m.map Prod.fst).Nodup →
      ((subs.foldl
        (fun m s => if s.competitorRated == p then upsertScore s.rater s.score m else m)
        m).map Prod.fst).Nodup := by
  intro subs
  induction subs with
  | nil => intro m h; exact h
  | cons s rest ih =>
    intro m h
    rw [List.foldl_cons]
    by_cases hc : (s.competitorRated == p) = true
    · rw [if_pos hc]
      exact ih _ (upsertScore_fst_nodup s.rater s.score m h)
    · rw [if_neg hc]
      exact ih _ h

theorem specLatestScores_fst_nodup (p : Nat) (subs : List RatingSubmission) :
    ((specLatestScores p subs).map Prod.fst).Nodup := by
  rw [specLatestScores]
  exact foldSpec_fst_nodup p subs [] (by simp)

theorem ratingKeyMatch_decompose {chId raterId comp : Nat} {r : Rating}
    (h : ratingKeyMatch chId raterId comp r = true) :
    r.challenge = chId ∧ r.rater = raterId ∧ r.competitorRated = comp := by
  simpa [ratingKeyMatch, and_assoc] using h

theorem ratingKeyMatch_of (chId raterId comp : Nat) (r : Rating)
    (h1 : r.challenge = chId) (h2 : r.rater = raterId) (h3 : r.competitorRated = comp) :
    ratingKeyMatch chId raterId comp r = true := by
  simp [ratingKeyMatch, h1, h2, h3]

theorem ratingsForP_updateFirst (chId raterId p : Nat) (score : ℚ) (now : Nat) :
    ∀ db : List Rating, (db.find? (ratingKeyMatch chId raterId p)).isSome = true →
      (ratingsForP (updateFirst (ratingKeyMatch chId raterId p)
          (fun r => { r with score := score, timestamp := now }) db) chId p).map pairOf =
        upsertScore raterId score ((ratingsForP db chId p).map pairOf) := by
  intro db
  induction db with
  | nil => intro h; simp [List.find?] at h
  | cons r rs ih =>
    intro h
    by_cases hk : ratingKeyMatch chId raterId p r = true
    · obtain ⟨hc1, hc2, hc3⟩ := ratingKeyMatch_decompose hk
      rw [updateFirst, if_pos hk]
      unfold ratingsForP
      rw [List.filter_cons, List.filter_cons]
      have hq : (r.challenge == chId && r.competitorRated == p) = true := by
        simp [hc1, hc3]
      have hqf : (({ r with score := score, timestamp := now } : Rating).challenge == chId &&
          ({ r with score := score, timestamp := now } : Rating).competitorRated == p) =
          true := hq
      rw [if_pos hqf, if_pos hq, List.map_cons, List.map_cons]
      rw [show pairOf ({ r with score := score, timestamp := now } : Rating) =
        (raterId, score) from by simp [pairOf, hc2]]
      rw [show pairOf r = (raterId, r.score) from by simp [pairOf, hc2]]
      rw [upsertScore, if_pos (by simp)]
    · rw [updateFirst, if_neg hk]
      have h' : (rs.find? (ratingKeyMatch chId raterId p)).isSome = true := by
        rwa [List.find?_cons_of_neg _ (by simpa using hk)] at h
      unfold ratingsForP
      rw [List.filter_cons, List.filter_cons]
      by_cases hq : (r.challenge == chId && r.competitorRated == p) = true
      · obtain ⟨ha, hb⟩ : r.challenge = chId ∧ r.competitorRated = p := by simpa using hq
        have hr : (r.rater == raterId) = false := by
          by_cases hrr : r.rater = raterId
          · exact absurd (ratingKeyMatch_of chId raterId p r ha hrr hb) hk
          · simp [hrr]
        rw [if_pos hq, if_pos hq, List.map_cons, List.map_cons]
        rw [upsertScore, if_neg (by simp [pairOf, hr] : ¬ ((pairOf r).1 == raterId) = true)]
        exact congrArg (List.cons (pairOf r)) (ih h')
      · rw [if_neg hq, if_neg hq]
        exact ih h'

theorem ratingsForP_updateFirst_other (chId raterId comp p : Nat) (score : ℚ) (now : Nat)
    (hne : comp ≠ p) :
    ∀ db : List Rating,
      ratingsForP (updateFirst (ratingKeyMatch chId raterId comp)
        (fun r => { r with score := score, timestamp := now }) db) chId p =
      ratingsForP db chId p := by
  intro db
  induction db with
  | nil => rfl
  | cons r rs ih =>
    by_cases hk : ratingKeyMatch chId raterId comp r = true
    · obtain ⟨hc1, hc2, hc3⟩ := ratingKeyMatch_decompose hk
      rw [updateFirst, if_pos hk]
      unfold ratingsForP
      rw [List.filter_cons, List.filter_cons]
      have hq : (r.challenge == chId && r.competitorRated == p) = false := by
        have : r.competitorRated ≠ p := by rw [hc3]; exact hne
        simp [this]
      have hqf : (({ r with score := score, timestamp := now } : Rating).challenge == chId &&
          ({ r with score := score, timestamp := now } : Rating).competitorRated == p) =
          false := hq
      rw [if_neg (by simp [hqf] : ¬ _ = true), if_neg (by simp [hq] : ¬ _ = true)]
    · rw [updateFirst, if_neg hk]
      unfold ratingsForP
      rw [List.filter_cons, List.filter_cons]
      by_cases hq : (r.challenge == chId && r.competitorRated == p) = true
      · rw [if_pos hq, if_pos hq]
        exact congrArg (List.cons r) ih
      · rw [if_neg hq, if_neg hq]
        exact ih

theorem ratingsForP_append_new (chId raterId comp p : Nat) (score : ℚ) (now : Nat)
    (db : List Rating) :
    ratingsForP (db ++ [⟨chId, raterId, comp, score, now⟩]) chId p =
      ratingsForP db chId p ++
        (if comp = p then [⟨chId, raterId, comp, score, now⟩] else []) := by
  unfold ratingsForP
  rw [List.filter_append]
  by_cases hc : comp = p
  · subst hc
    simp
  · simp [hc]

theorem submitRatingDb_pairs (db : List Rating) (chId raterId comp p : Nat)
    (score : ℚ) (now : Nat) :
    (ratingsForP (submitRatingDb db chId raterId comp score now) chId p).map pairOf =
      if comp = p then upsertScore raterId score ((ratingsForP db chId p).map pairOf)
      else (ratingsForP db chId p).map pairOf := by
  unfold submitRatingDb
  by_cases hf : (db.find? (ratingKeyMatch chId raterId comp)).isSome = true
  · rw [if_pos hf]
    by_cases hc : comp = p
    · subst hc
      rw [if_pos rfl]
      exact ratingsForP_updateFirst chId raterId comp score now db hf
    · rw [if_neg hc, ratingsForP_updateFirst_other chId raterId comp p score now hc db]
  · rw [if_neg hf, ratingsForP_append_new]
    by_cases hc : comp = p
    · subst hc
      rw [if_pos rfl, if_pos rfl, List.map_append]
      have habsent : raterId ∉ ((ratingsForP db chId comp).map pairOf).map Prod.fst := by
        intro hmem
        rw [List.map_map, List.mem_map] at hmem
        obtain ⟨r, hrmem, hrk⟩ := hmem
        rw [ratingsForP, List.mem_filter] at hrmem
        obtain ⟨hin, hq⟩ := hrmem
        obtain ⟨ha, hb⟩ : r.challenge = chId ∧ r.competitorRated = comp := by simpa using hq
        have hmatch := ratingKeyMatch_of chId raterId comp r ha hrk hb
        have hnone : db.find? (ratingKeyMatch chId raterId comp) = none := by
          rcases hopt : db.find? (ratingKeyMatch chId raterId comp) with _ | v
          · rfl
          · exact absurd (by rw [hopt]; rfl) hf
        exact absurd hmatch (List.find?_eq_none.mp hnone r hin)
      rw [upsertScore_of_not_mem raterId score _ habsent]
      rfl
    · rw [if_neg hc, if_neg hc, List.append_nil]

theorem foldDb_pairs (chId p : Nat) :
    ∀ (subs : List RatingSubmission) (db : List Rating),
      (ratingsForP (subs.foldl
          (fun d s => submitRatingDb d chId s.rater s.competitorRated s.score s.time) db)
        chId p).map pairOf =
      subs.foldl
        (fun m s => if s.competitorRated == p then upsertScore s.rater s.score m else m)
        ((ratingsForP db chId p).map pairOf) := by
  intro subs
  induction subs with
  | nil => intro db; rfl
  | cons s rest ih =>
    intro db
    rw [List.foldl_cons, List.foldl_cons, ih]
    congr 1
    rw [submitRatingDb_pairs]
    by_cases hc : s.competitorRated = p
    · rw [if_pos hc, if_pos (by simpa using hc : (s.competitorRated == p) = true)]
    · rw [if_neg hc, if_neg (by simpa using hc : ¬ (s.competitorRated == p) = true)]

theorem creatorRatingsOf_eq (ch : Challenge) (db : List Rating) :
    creatorRatingsOf ch db = ratingsForP db ch.id ch.creator := rfl

theorem opponentRatingsOf_eq (ch : Challenge) (db : List Rating) (p : Nat)
    (h : ch.opponent = some p) :
    opponentRatingsOf ch db = ratingsForP db ch.id p := by
  unfold opponentRatingsOf ratingsForP
  refine List.filter_congr ?_
  intro r hr
  rw [h]
  by_cases hh : r.competitorRated = p
  · simp [hh]
  · have h1 : (some p == some r.competitorRated) = false := by
      simp only [beq_eq_false_iff_ne, ne_eq, Option.some.injEq]
      exact fun e => hh e.symm
    have h2 : (r.competitorRated == p) = false := by
      simp [hh]
    rw [h1, h2]

theorem map_snd_pairOf (l : List Rating) :
    (l.map pairOf).map Prod.snd = l.map Rating.score := by
  rw [List.map_map]
  rfl

theorem applyRatingOps_closed (ch0 : Challenge)
    (hlive : ch0.status = ChallengeStatus.live) :
    ∀ (subs : List RatingSubmission) (db : List Rating),
      (∀ s ∈ subs, ((s.competitorRated == ch0.creator) ||
        (some s.competitorRated == ch0.opponent)) = true) →
      applyRatingOps (db, rescanChallenge ch0 db) subs =
        (subs.foldl
          (fun d s => submitRatingDb d ch0.id s.rater s.competitorRated s.score s.time) db,
         rescanChallenge ch0 (subs.foldl
          (fun d s => submitRatingDb d ch0.id s.rater s.competitorRated s.score s.time) db)) := by
  intro subs
  induction subs with
  | nil => intro db _; rfl
  | cons s rest ih =>
    intro db hacc
    have hs := hacc s (List.mem_cons_self s rest)
    rw [applyRatingOps_cons]
    have hok := submitRating_eq_ok db (rescanChallenge ch0 db) s.rater s.competitorRated
      s.score s.time (by rw [rescanChallenge_status]; exact hlive)
      (by rw [rescanChallenge_creator, rescanChallenge_opponent]; exact hs)
    rw [hok]
    rw [List.foldl_cons]
    have htail := ih (submitRatingDb db ch0.id s.rater s.competitorRated s.score s.time)
      (fun x hx => hacc x (List.mem_cons_of_mem s hx))
    exact htail

/-- C2: starting from a live challenge with zeroed accumulators and an empty
rating store, after any sequence of accepted submitRating commands a
participant's stored sum is the sum over distinct raters of each rater's
latest score for that participant, the stored count is the number of distinct
raters (a resubmission never increases it), and the store holds at most one
record per (challenge, rater, competitorRated) key. -/
theorem submitRating_sequence_latest (ch0 : Challenge) (subs : List RatingSubmission)
    (p : Nat)
    (hlive : ch0.status = ChallengeStatus.live)
    (hz1 : ch0.creatorRatingSum = 0) (hz2 : ch0.creatorRatingCount = 0)
    (hz3 : ch0.opponentRatingSum = 0) (hz4 : ch0.opponentRatingCount = 0)
    (hz5 : ch0.totalRatings = 0)
    (hacc : ∀ s ∈ subs, ((s.competitorRated == ch0.creator) ||
      (some s.competitorRated == ch0.opponent)) = true)
    (hp : p = ch0.creator ∨ ch0.opponent = some p) :
    participantRatingSum (applyRatingOps ([], ch0) subs).2 p =
      ((specLatestScores p subs).map Prod.snd).sum ∧
    participantRatingCount (applyRatingOps ([], ch0) subs).2 p =
      (specLatestScores p subs).length ∧
    ((specLatestScores p subs).map Prod.fst).Nodup ∧
    ratingKeysNodup (applyRatingOps ([], ch0) subs).1 := by
  have h0 : rescanChallenge ch0 [] = ch0 := rescanChallenge_nil ch0 hz1 hz2 hz3 hz4 hz5
  have hrun := applyRatingOps_closed ch0 hlive subs [] hacc
  rw [h0] at hrun
  set DBf := subs.foldl
    (fun d s => submitRatingDb d ch0.id s.rater s.competitorRated s.score s.time)
    ([] : List Rating) with hDBf
  have h1 : (applyRatingOps ([], ch0) subs).1 = DBf := by rw [hrun]
  have h2 : (applyRatingOps ([], ch0) subs).2 = rescanChallenge ch0 DBf := by rw [hrun]
  have hhc : (ratingsForP DBf ch0.id ch0.creator).map pairOf =
      specLatestScores ch0.creator subs := by
    rw [hDBf, specLatestScores]
    exact foldDb_pairs ch0.id ch0.creator subs []
  have hhp : (ratingsForP DBf ch0.id p).map pairOf = specLatestScores p subs := by
    rw [hDBf, specLatestScores]
    exact foldDb_pairs ch0.id p subs []
  refine ⟨?_, ?_, specLatestScores_fst_nodup p subs, ?_⟩
  · rw [h2, participantRatingSum, rescanChallenge_creator]
    by_cases hc : p = ch0.creator
    · subst hc
      rw [if_pos rfl]
      show scoreSum (creatorRatingsOf ch0 DBf) = _
      rw [creatorRatingsOf_eq, scoreSum_eq_sum, ← map_snd_pairOf, hhc]
    · rcases hp with hp | hopp
      · exact absurd hp hc
      · rw [if_neg hc]
        show scoreSum (opponentRatingsOf ch0 DBf) = _
        rw [opponentRatingsOf_eq ch0 DBf p hopp, scoreSum_eq_sum, ← map_snd_pairOf, hhp]
  · rw [h2, participantRatingCount, rescanChallenge_creator]
    by_cases hc : p = ch0.creator
    · subst hc
      rw [if_pos rfl]
      show (creatorRatingsOf ch0 DBf).length = _
      rw [creatorRatingsOf_eq, ← hhc, List.length_map]
    · rcases hp with hp | hopp
      · exact absurd hp hc
      · rw [if_neg hc]
        show (opponentRatingsOf ch0 DBf).length = _
        rw [opponentRatingsOf_eq ch0 DBf p hopp, ← hhp, List.length_map]
  · rw [h1, hDBf]
    exact foldDb_keysNodup ch0.id subs [] (by simp [ratingKeysNodup])

/-- Witness for C2: raters 10 and 11 rate the creator of a live challenge,
rater 10 resubmitting once, and rater 10 also rates the opponent; the
creator's final sum is 2 + 5 and the count stays at two distinct raters. -/
theorem submitRating_sequence_latest_witness :
    c2Challenge.status = ChallengeStatus.live ∧
    (∀ s ∈ c2Subs, ((s.competitorRated == c2Challenge.creator) ||
      (some s.competitorRated == c2Challenge.opponent)) = true) ∧
    specLatestScores 1 c2Subs = [(10, 2), (11, 5)] ∧
    ((specLatestScores 1 c2Subs).map Prod.snd).sum = 7 ∧
    (participantRatingSum (applyRatingOps ([], c2Challenge) c2Subs).2 1 =
        ((specLatestScores 1 c2Subs).map Prod.snd).sum ∧
     participantRatingCount (applyRatingOps ([], c2Challenge) c2Subs).2 1 =
        (specLatestScores 1 c2Subs).length ∧
     ((specLatestScores 1 c2Subs).map Prod.fst).Nodup ∧
     ratingKeysNodup (applyRatingOps ([], c2Challenge) c2Subs).1) := by
  refine ⟨rfl, by decide, ?_, ?_,
    submitRating_sequence_latest c2Challenge c2Subs 1 rfl rfl rfl rfl rfl rfl
      (by decide) (Or.inl rfl)⟩
  · norm_num [specLatestScores, upsertScore, c2Subs]
  · norm_num [specLatestScores, upsertScore, c2Subs]

end Dueli
